import Mathlib

/-!
Verification development for the System Calculator core of the Wn-create
repository (`src/unnamed/part_000`, the `Calculator` component).

The component loops over levels 1..20; per level it computes the experience
requirement from `xpCurve`/`xpBase`/`xpFactor` (lines 12-17), accumulates a
running total (lines 10 and 18), simulates a stat snapshot (line 21), and
evaluates the two author-entered formulas with `evalFormula` (lines 24-32),
which substitutes stat names into the string, tests a character whitelist,
and hands the resulting string to the host JavaScript engine through
`new Function`.

JavaScript numbers are idealized as exact rationals: a finite double is a
value of the kernel-computable rational type `Q` below, and the non-finite
doubles Infinity, -Infinity and NaN are explicit constructors of `JSNum`.
Rounding of IEEE doubles is not modelled; none of the stated properties
depends on it.
-/

namespace WnCreate

/-- Exact rational numbers, kept in lowest terms with a nonnegative
denominator by the smart constructor `normQ`. This bespoke type is used
instead of Mathlib's `Rat` because its operations reduce inside the kernel,
so concrete runs of the embedded program can be checked by `decide`. -/
structure Q where
  num : Int
  den : Nat
deriving DecidableEq

/-- Normalize a numerator/denominator pair to lowest terms. A zero
denominator (which no embedded computation produces on its own) collapses to
the marker value `⟨0, 0⟩`. -/
def normQ (n : Int) (d : Nat) : Q :=
  if d = 0 then ⟨0, 0⟩
  else
    let g := Nat.gcd n.natAbs d
    ⟨n / (g : Int), d / g⟩

/-- Embed an integer. -/
def Q.ofInt (n : Int) : Q := ⟨n, 1⟩

/-- Embed a natural number. -/
def Q.ofNat (n : Nat) : Q := ⟨(n : Int), 1⟩

/-- Rational addition. -/
def Q.add (a b : Q) : Q :=
  normQ (a.num * (b.den : Int) + b.num * (a.den : Int)) (a.den * b.den)

/-- Rational negation. -/
def Q.neg (a : Q) : Q := ⟨-a.num, a.den⟩

/-- Rational subtraction. -/
def Q.sub (a b : Q) : Q := a.add b.neg

/-- Rational multiplication. -/
def Q.mul (a b : Q) : Q := normQ (a.num * b.num) (a.den * b.den)

/-- Rational division; division by zero collapses to the marker `⟨0, 0⟩`
(callers in `JSNum` test for a zero divisor first). -/
def Q.div (a b : Q) : Q :=
  let n := a.num * (b.den : Int)
  let m := (a.den : Int) * b.num
  if m < 0 then normQ (-n) m.natAbs else normQ n m.natAbs

/-- Rational power with a natural exponent (the only form the embedded
program uses: `Math.pow(i, 2)` and `Math.pow(xpFactor, i)`). -/
def Q.pow (a : Q) : Nat → Q
| 0 => ⟨1, 1⟩
| k + 1 => (Q.pow a k).mul a

/-- Floor to an integer, the model of JavaScript `Math.floor` on a finite
number. -/
def Q.floor (a : Q) : Int :=
  if a.den = 0 then 0 else Int.fdiv a.num (a.den : Int)

/-- A JavaScript number: a finite double idealized as an exact rational, or
one of the non-finite values `Infinity`, `-Infinity`, `NaN`. -/
inductive JSNum where
| fin : Q → JSNum
| inf : JSNum
| negInf : JSNum
| nan : JSNum
deriving DecidableEq

/-- Finiteness test on a modelled JavaScript number. -/
def JSNum.isFinite : JSNum → Bool
| .fin _ => true
| _ => false

/-- JavaScript unary minus. -/
def JSNum.neg : JSNum → JSNum
| .fin q => .fin q.neg
| .inf => .negInf
| .negInf => .inf
| .nan => .nan

/-- JavaScript addition on doubles, idealized. -/
def JSNum.add : JSNum → JSNum → JSNum
| .nan, _ => .nan
| _, .nan => .nan
| .inf, .negInf => .nan
| .negInf, .inf => .nan
| .inf, _ => .inf
| _, .inf => .inf
| .negInf, _ => .negInf
| _, .negInf => .negInf
| .fin a, .fin b => .fin (a.add b)

/-- JavaScript subtraction: `a - b = a + (-b)`. -/
def JSNum.sub (a b : JSNum) : JSNum := a.add b.neg

/-- JavaScript multiplication on doubles, idealized. -/
def JSNum.mul : JSNum → JSNum → JSNum
| .nan, _ => .nan
| _, .nan => .nan
| .fin a, .fin b => .fin (a.mul b)
| .fin a, .inf => if 0 < a.num then .inf else if a.num < 0 then .negInf else .nan
| .fin a, .negInf => if 0 < a.num then .negInf else if a.num < 0 then .inf else .nan
| .inf, .fin b => if 0 < b.num then .inf else if b.num < 0 then .negInf else .nan
| .negInf, .fin b => if 0 < b.num then .negInf else if b.num < 0 then .inf else .nan
| .inf, .inf => .inf
| .inf, .negInf => .negInf
| .negInf, .inf => .negInf
| .negInf, .negInf => .inf

/-- JavaScript division on doubles, idealized: a nonzero finite number
divided by zero is a signed infinity, `0 / 0` is `NaN`, and no division ever
throws. -/
def JSNum.div : JSNum → JSNum → JSNum
| .nan, _ => .nan
| _, .nan => .nan
| .fin a, .fin b =>
  if b.num = 0 then
    if 0 < a.num then .inf else if a.num < 0 then .negInf else .nan
  else .fin (a.div b)
| .fin _, .inf => .fin ⟨0, 1⟩
| .fin _, .negInf => .fin ⟨0, 1⟩
| .inf, .fin b => if b.num < 0 then .negInf else .inf
| .negInf, .fin b => if b.num < 0 then .inf else .negInf
| .inf, .inf => .nan
| .inf, .negInf => .nan
| .negInf, .inf => .nan
| .negInf, .negInf => .nan

/-- Result of `evalFormula`: either a JavaScript number or the string
marker `Err`, the single error marker the source ever returns (for both a
failed whitelist test and a caught exception). -/
inductive EvalResult where
| num : JSNum → EvalResult
| err : EvalResult
deriving DecidableEq

instance : Inhabited EvalResult := ⟨EvalResult.err⟩

/-- ASCII whitespace, the ASCII fragment of the JavaScript regex class
`\s` used by the whitelist. -/
def isSpaceChar (c : Char) : Bool :=
  c == ' ' || c == '\t' || c == '\n' || c == '\r' || c == '\x0b' || c == '\x0c'

/-- Characters accepted by the whitelist regex on line 29 of the source:
`^[\d\s\+\-\*\/\(\)\.]+$`. -/
def isAllowedChar (c : Char) : Bool :=
  c.isDigit || isSpaceChar c || c == '+' || c == '-' || c == '*' ||
    c == '/' || c == '(' || c == ')' || c == '.'

/-- Whether the whole string matches the whitelist regex: nonempty (the
regex body is a `+` repetition) and made only of allowed characters. -/
def okString (s : List Char) : Bool := !s.isEmpty && s.all isAllowedChar

/-- Left-to-right, non-overlapping replacement of every occurrence of `pat`
by `rep`, the model of `s.replace(new RegExp(k, 'g'), v)` on line 27 of the
source for the plain-word patterns `STR`, `VIT`, `INT`, `WIS`. Driven by
fuel so that it reduces in the kernel; `replace1` supplies fuel equal to the
string length, which suffices because every step consumes at least one
character. -/
def replaceAll (pat rep : List Char) : Nat → List Char → List Char
| _, [] => []
| 0, s => s
| fuel + 1, c :: cs =>
  if !pat.isEmpty && pat.isPrefixOf (c :: cs) then
    rep ++ replaceAll pat rep fuel ((c :: cs).drop pat.length)
  else
    c :: replaceAll pat rep fuel cs

/-- Replace every occurrence of `pat` by `rep` in `s`. -/
def replace1 (pat rep s : List Char) : List Char := replaceAll pat rep s.length s

/-- Substitute every stat name by the decimal rendering of its value, in
snapshot key order, exactly as the `Object.keys(simStats).forEach` loop on
line 27 of the source does (JavaScript coerces the numeric value to its
decimal string). -/
def subst (stats : List (List Char × Nat)) (f : List Char) : List Char :=
  stats.foldl (fun s kv => replace1 kv.1 (Nat.repr kv.2).data s) f

/-- The simulated stat snapshot of line 21 of the source: keys in insertion
order `STR`, `VIT`, `INT`, `WIS`, each valued `10 + level * 5`. -/
def simStats (i : Nat) : List (List Char × Nat) :=
  [(['S', 'T', 'R'], 10 + i * 5), (['V', 'I', 'T'], 10 + i * 5),
   (['I', 'N', 'T'], 10 + i * 5), (['W', 'I', 'S'], 10 + i * 5)]

/-- Tokens of the arithmetic fragment reachable through the whitelist. -/
inductive Tok where
| num : Q → Tok
| plus
| minus
| star
| slash
| lparen
| rparen
deriving DecidableEq

/-- Decimal digits to a natural number. -/
def digitsToNat (ds : List Char) : Nat :=
  ds.foldl (fun a c => 10 * a + (c.toNat - 48)) 0

/-- Value of a numeric literal with integer part `ip` and fractional part
`fp` (either may be empty, as in `5.` and `.5`). -/
def litVal (ip fp : List Char) : Q :=
  normQ ((digitsToNat ip : Int) * ((10 : Int) ^ fp.length) + (digitsToNat fp : Int))
    ((10 : Nat) ^ fp.length)

/-- Tokenizer for whitelist-passing strings, following the JavaScript
lexer on this character set: whitespace is skipped, numeric literals take a
maximal run of digits with at most one decimal point, and the two-character
sequences `++`, `--`, `**`, `//` and `/*` are refused. For `++` and `--`
this matches the host exactly (they lex as update operators and the
resulting program text is a syntax error, so the source's `catch` yields
`Err`); `**` and comments are host features this model conservatively maps
to the error outcome, a discrepancy no stated property relies on. -/
def tokenizeF : Nat → List Char → Option (List Tok)
| _, [] => some []
| 0, _ :: _ => none
| fuel + 1, c :: cs =>
  if isSpaceChar c then tokenizeF fuel cs
  else if c == '+' then
    match cs with
    | '+' :: _ => none
    | _ => (tokenizeF fuel cs).map (Tok.plus :: ·)
  else if c == '-' then
    match cs with
    | '-' :: _ => none
    | _ => (tokenizeF fuel cs).map (Tok.minus :: ·)
  else if c == '*' then
    match cs with
    | '*' :: _ => none
    | _ => (tokenizeF fuel cs).map (Tok.star :: ·)
  else if c == '/' then
    match cs with
    | '/' :: _ => none
    | '*' :: _ => none
    | _ => (tokenizeF fuel cs).map (Tok.slash :: ·)
  else if c == '(' then (tokenizeF fuel cs).map (Tok.lparen :: ·)
  else if c == ')' then (tokenizeF fuel cs).map (Tok.rparen :: ·)
  else if c.isDigit then
    let ip := (c :: cs).takeWhile Char.isDigit
    match (c :: cs).dropWhile Char.isDigit with
    | '.' :: r2 =>
      (tokenizeF fuel (r2.dropWhile Char.isDigit)).map
        (Tok.num (litVal ip (r2.takeWhile Char.isDigit)) :: ·)
    | r1 => (tokenizeF fuel r1).map (Tok.num (litVal ip []) :: ·)
  else if c == '.' then
    match cs with
    | d :: _ =>
      if d.isDigit then
        (tokenizeF fuel (cs.dropWhile Char.isDigit)).map
          (Tok.num (litVal [] (cs.takeWhile Char.isDigit)) :: ·)
      else none
    | [] => none
  else none

/-- Tokenize a whole string. -/
def tokenize (s : List Char) : Option (List Tok) := tokenizeF s.length s

mutual

/-- Additive level of the expression grammar: `E → T (('+' | '-') T)*`,
left-associative, conventional precedence. -/
def parseE : Nat → List Tok → Option (JSNum × List Tok)
| 0, _ => none
| fuel + 1, ts =>
  match parseT fuel ts with
  | none => none
  | some (a, ts1) => parseELoop fuel a ts1

/-- Tail loop of the additive level. -/
def parseELoop : Nat → JSNum → List Tok → Option (JSNum × List Tok)
| 0, _, _ => none
| fuel + 1, a, ts =>
  match ts with
  | Tok.plus :: ts1 =>
    match parseT fuel ts1 with
    | none => none
    | some (b, ts2) => parseELoop fuel (a.add b) ts2
  | Tok.minus :: ts1 =>
    match parseT fuel ts1 with
    | none => none
    | some (b, ts2) => parseELoop fuel (a.sub b) ts2
  | _ => some (a, ts)

/-- Multiplicative level: `T → U (('*' | '/') U)*`, left-associative. -/
def parseT : Nat → List Tok → Option (JSNum × List Tok)
| 0, _ => none
| fuel + 1, ts =>
  match parseU fuel ts with
  | none => none
  | some (a, ts1) => parseTLoop fuel a ts1

/-- Tail loop of the multiplicative level. -/
def parseTLoop : Nat → JSNum → List Tok → Option (JSNum × List Tok)
| 0, _, _ => none
| fuel + 1, a, ts =>
  match ts with
  | Tok.star :: ts1 =>
    match parseU fuel ts1 with
    | none => none
    | some (b, ts2) => parseTLoop fuel (a.mul b) ts2
  | Tok.slash :: ts1 =>
    match parseU fuel ts1 with
    | none => none
    | some (b, ts2) => parseTLoop fuel (a.div b) ts2
  | _ => some (a, ts)

/-- Unary level: chains of unary `+` and `-`, as JavaScript allows when the
tokens are separated (adjacent `--`/`++` were already refused by the
lexer). -/
def parseU : Nat → List Tok → Option (JSNum × List Tok)
| 0, _ => none
| fuel + 1, ts =>
  match ts with
  | Tok.plus :: ts1 => parseU fuel ts1
  | Tok.minus :: ts1 =>
    match parseU fuel ts1 with
    | none => none
    | some (a, ts2) => some (a.neg, ts2)
  | _ => parseP fuel ts

/-- Primary level: a numeric literal or a parenthesized expression. -/
def parseP : Nat → List Tok → Option (JSNum × List Tok)
| 0, _ => none
| fuel + 1, ts =>
  match ts with
  | Tok.num q :: ts1 => some (JSNum.fin q, ts1)
  | Tok.lparen :: ts1 =>
    match parseE fuel ts1 with
    | none => none
    | some (a, ts2) =>
      match ts2 with
      | Tok.rparen :: ts3 => some (a, ts3)
      | _ => none
  | _ => none

end

/-- Model of `new Function('return ' + s)()` on a whitelist-passing string
`s`: lex, parse the arithmetic expression, and require the whole token list
to be consumed. `none` models a thrown `SyntaxError`, which the source's
`catch` turns into `Err`; a successful parse yields a number and never
throws. The parser fuel `4 * length + 4` exceeds the number of parser calls
any token list of that length can cause. -/
def jsEval (s : List Char) : Option JSNum :=
  match tokenize s with
  | none => none
  | some ts =>
    match parseE (4 * ts.length + 4) ts with
    | some (v, []) => some v
    | _ => none

/-- Embedding of `evalFormula` (source lines 24-32): substitute the stat
values into the formula string, return `Err` if the result fails the
whitelist regex, otherwise hand the string to the host evaluator, with any
thrown exception caught as `Err`. -/
def evalFormula (f : List Char) (stats : List (List Char × Nat)) : EvalResult :=
  let s := subst stats f
  if okString s then
    match jsEval s with
    | some v => EvalResult.num v
    | none => EvalResult.err
  else EvalResult.err

/-- The `xpCurve` selector of `project.systemRules`. -/
inductive Curve where
| linear
| quadratic
| exponential
deriving DecidableEq

/-- The two named formula slots of `project.systemRules.formulas`. -/
structure Formulas where
  hp : List Char
  mp : List Char
deriving DecidableEq

/-- The `systemRules` configuration consumed by the Calculator, restricted
to the case where `xpBase` and `xpFactor` hold actual finite numbers. The
source fields are JavaScript numbers and can also hold `NaN` or `±Infinity`
(`parseInt('')` on a cleared Base XP field, `parseFloat` on degenerate
input); `SystemRulesJS` below models that full domain, and
`neededForJS_finite` proves the two models agree whenever the
configuration values are finite. -/
structure SystemRules where
  xpCurve : Curve
  xpBase : Q
  xpFactor : Q
  formulas : Formulas

/-- Experience required at level `i` (source lines 12-17): the raw curve
value, floored, then clamped — a raw value strictly below the flat
threshold 100 is replaced by `100 * i`. -/
def neededFor (r : SystemRules) (i : Nat) : Int :=
  let raw : Int :=
    match r.xpCurve with
    | Curve.linear => Q.floor ((r.xpBase.mul (Q.ofNat i)).mul r.xpFactor)
    | Curve.quadratic =>
      Q.floor (((r.xpBase.mul ((Q.ofNat i).pow 2)).mul r.xpFactor).div (Q.ofNat 10))
    | Curve.exponential => Q.floor (r.xpBase.mul (r.xpFactor.pow i))
  if raw < 100 then 100 * (i : Int) else raw

/-- One row of the progression preview (source line 34). -/
structure Row where
  level : Nat
  xp : Int
  total : Int
  hp : EvalResult
  mp : EvalResult
deriving DecidableEq

instance : Inhabited Row := ⟨⟨0, 0, 0, EvalResult.err, EvalResult.err⟩⟩

/-- The loop body of the Calculator's `useMemo` (source lines 9-36), made
explicit: starting at level `i` with accumulated total `total`, produce
`count` more rows, each carrying the clamped requirement, the new running
total, and the two formula evaluations against that level's snapshot. -/
def buildTableFrom (r : SystemRules) (i : Nat) (total : Int) : Nat → List Row
| 0 => []
| count + 1 =>
  let needed := neededFor r i
  let total2 := total + needed
  { level := i, xp := needed, total := total2,
    hp := evalFormula r.formulas.hp (simStats i),
    mp := evalFormula r.formulas.mp (simStats i) } ::
    buildTableFrom r (i + 1) total2 count

/-- The progression table for levels `1..n`: the source loop
`for (let i = 1; i <= 20; i++)` with the level count as a parameter. -/
def buildTable (r : SystemRules) (n : Nat) : List Row := buildTableFrom r 1 0 n

/-- The `data` value the source component actually renders: the table at the
source's fixed level count 20. -/
def calculatorData (r : SystemRules) : List Row := buildTable r 20

/-- Sum of the requirements of the `m` levels starting at level `i`. -/
def sumNeeded (r : SystemRules) (i : Nat) : Nat → Int
| 0 => 0
| m + 1 => sumNeeded r i m + neededFor r (i + m)

/-- JavaScript strict `<` on numbers: any comparison involving `NaN` is
false; `-Infinity` is below and `Infinity` above every other number. -/
def JSNum.lt : JSNum → JSNum → Bool
| .nan, _ => false
| _, .nan => false
| .fin a, .fin b => decide (a.num * (b.den : Int) < b.num * (a.den : Int))
| .negInf, .negInf => false
| .negInf, _ => true
| _, .negInf => false
| .inf, _ => false
| _, .inf => true

/-- JavaScript `<=` on numbers: any comparison involving `NaN` is false. -/
def JSNum.le : JSNum → JSNum → Bool
| .nan, _ => false
| _, .nan => false
| .fin a, .fin b => decide (a.num * (b.den : Int) ≤ b.num * (a.den : Int))
| .negInf, _ => true
| _, .negInf => false
| _, .inf => true
| .inf, _ => false

/-- JavaScript `Math.floor` on the full number domain: the floor of a
finite number, and `NaN`/`±Infinity` unchanged. -/
def JSNum.floorJS : JSNum → JSNum
| .fin q => .fin ⟨q.floor, 1⟩
| .inf => .inf
| .negInf => .negInf
| .nan => .nan

/-- JavaScript `Math.pow` with a natural exponent over the full number
domain, as iterated multiplication (`Math.pow(x, 0) = 1` even for
`x = NaN`, matching the host). -/
def JSNum.powNat (a : JSNum) : Nat → JSNum
| 0 => .fin ⟨1, 1⟩
| k + 1 => (a.powNat k).mul a

/-- The `systemRules` configuration over the full JavaScript number domain:
`xpBase`/`xpFactor` may be `NaN` or `±Infinity`, exactly as the source
fields can after `parseInt('')` or a degenerate `parseFloat`. -/
structure SystemRulesJS where
  xpCurve : Curve
  xpBase : JSNum
  xpFactor : JSNum
  formulas : Formulas

/-- Experience required at level `i` (source lines 12-17) over the full
JavaScript number domain: raw curve value, `Math.floor`, then the clamp
`if (needed < 100) needed = 100 * i` under the JavaScript `<`, which is
false when the raw value is `NaN` — so a `NaN` raw value skips the clamp
and survives. -/
def neededForJS (r : SystemRulesJS) (i : Nat) : JSNum :=
  let raw : JSNum :=
    match r.xpCurve with
    | Curve.linear => ((r.xpBase.mul (JSNum.fin (Q.ofNat i))).mul r.xpFactor).floorJS
    | Curve.quadratic =>
      (((r.xpBase.mul ((JSNum.fin (Q.ofNat i)).powNat 2)).mul r.xpFactor).div
        (JSNum.fin (Q.ofNat 10))).floorJS
    | Curve.exponential => (r.xpBase.mul (r.xpFactor.powNat i)).floorJS
  if raw.lt (JSNum.fin ⟨100, 1⟩) then JSNum.fin ⟨100 * (i : Int), 1⟩ else raw

/-- One row of the progression preview over the full JavaScript number
domain: `xp` and `total` are JavaScript numbers, so a `NaN` requirement
propagates into them as it does in the source. -/
structure RowJS where
  level : Nat
  xp : JSNum
  total : JSNum
  hp : EvalResult
  mp : EvalResult
deriving DecidableEq

instance : Inhabited RowJS :=
  ⟨⟨0, JSNum.nan, JSNum.nan, EvalResult.err, EvalResult.err⟩⟩

/-- The loop body of the Calculator over the full JavaScript number domain
(same structure as `buildTableFrom`, with `total += needed` as JavaScript
addition). -/
def buildTableFromJS (r : SystemRulesJS) (i : Nat) (total : JSNum) : Nat → List RowJS
| 0 => []
| count + 1 =>
  let needed := neededForJS r i
  let total2 := total.add needed
  { level := i, xp := needed, total := total2,
    hp := evalFormula r.formulas.hp (simStats i),
    mp := evalFormula r.formulas.mp (simStats i) } ::
    buildTableFromJS r (i + 1) total2 count

/-- The progression table for levels `1..n` over the full JavaScript
number domain (the source fixes `n = 20`). -/
def buildTableJS (r : SystemRulesJS) (n : Nat) : List RowJS :=
  buildTableFromJS r 1 (JSNum.fin ⟨0, 1⟩) n

/-- A configuration with a `NaN` base, as produced by clearing the Base XP
input (`parseInt('')` on source line 56), with growth factor 1. -/
def rNaN : SystemRulesJS :=
  ⟨Curve.linear, JSNum.nan, JSNum.fin ⟨1, 1⟩, ⟨[], []⟩⟩

/-- The finite configuration `rLin` viewed in the full JavaScript number
domain. -/
def rLinJS : SystemRulesJS :=
  ⟨Curve.linear, JSNum.fin ⟨1, 1⟩, JSNum.fin ⟨1, 1⟩, ⟨[], []⟩⟩

/-- The single row of `buildTableJS rLinJS 1`, the full-domain counterpart
of `wRow`. -/
def wRowJS : RowJS :=
  ⟨1, JSNum.fin ⟨100, 1⟩, JSNum.fin ⟨100, 1⟩, EvalResult.err, EvalResult.err⟩

/-- A concrete linear configuration with empty formulas, used to exhibit
concrete rows of the table. -/
def rLin : SystemRules :=
  ⟨Curve.linear, ⟨1, 1⟩, ⟨1, 1⟩, ⟨[], []⟩⟩

/-- The single row of `buildTable rLin 1`: the raw linear value
`floor(1 * 1 * 1) = 1` is below 100, so the requirement is clamped to
`100 * 1`; the empty formulas fail the whitelist and give `Err`. -/
def wRow : Row :=
  ⟨1, 100, 100, EvalResult.err, EvalResult.err⟩

/-- A configuration whose `hp` formula mentions the unsupported identifier
`AGI` (so its cell errors) and whose `mp` formula is `STR`. -/
def rA : SystemRules :=
  ⟨Curve.linear, ⟨1, 1⟩, ⟨1, 1⟩, ⟨['A', 'G', 'I'], ['S', 'T', 'R']⟩⟩

/-- The same configuration as `rA` except that the `hp` formula is the
literal `1`, which evaluates successfully. -/
def rB : SystemRules :=
  ⟨Curve.linear, ⟨1, 1⟩, ⟨1, 1⟩, ⟨['1'], ['S', 'T', 'R']⟩⟩

/-- The second row of `buildTable rLin 2`: requirement clamped to
`100 * 2 = 200`, running total `100 + 200 = 300`. -/
def wRow2 : Row :=
  ⟨2, 200, 300, EvalResult.err, EvalResult.err⟩

/-- The expression `AGI + 5`, using the identifier the UI advertises but
the simulated snapshot does not contain. -/
def exprAgi : List Char := ['A', 'G', 'I', ' ', '+', ' ', '5']

/-- The expression `10 / 0` as entered by an author. -/
def exprDivZero : List Char := ['1', '0', ' ', '/', ' ', '0']

/-- The expression `STRVIT`, the concatenation of two stat names with no
operator between them. -/
def exprStrVit : List Char := ['S', 'T', 'R', 'V', 'I', 'T']

/-- The table loop produces one row per remaining level. -/
theorem buildTableFrom_length (r : SystemRules) (c : Nat) :
    ∀ (i : Nat) (t : Int), (buildTableFrom r i t c).length = c := by
  induction c with
  | zero => intro i t; rfl
  | succ c ih => intro i t; simp [buildTableFrom, ih]

/-- The level fields of the rows produced from level `i` are `i, i+1, ...`. -/
theorem buildTableFrom_map_level (r : SystemRules) (c : Nat) :
    ∀ (i : Nat) (t : Int), (buildTableFrom r i t c).map Row.level = List.range' i c := by
  induction c with
  | zero => intro i t; rfl
  | succ c ih => intro i t; simp [buildTableFrom, ih, List.range'_succ]

/-- Splitting off the first summand of a block of requirements. -/
theorem sumNeeded_shift (r : SystemRules) (i : Nat) :
    ∀ (m : Nat), sumNeeded r i (m + 1) = neededFor r i + sumNeeded r (i + 1) m := by
  intro m
  induction m with
  | zero => simp [sumNeeded]
  | succ m ih =>
    have he : i + (m + 1) = (i + 1) + m := by omega
    calc sumNeeded r i (m + 1 + 1)
        = sumNeeded r i (m + 1) + neededFor r (i + (m + 1)) := rfl
      _ = neededFor r i + sumNeeded r (i + 1) m + neededFor r ((i + 1) + m) := by
          rw [ih, he]
      _ = neededFor r i + sumNeeded r (i + 1) (m + 1) := by
          rw [add_assoc]; rfl

/-- Closed form of the `k`-th row produced by the table loop. -/
theorem buildTableFrom_getElem? (r : SystemRules) (c : Nat) :
    ∀ (i : Nat) (t : Int) (k : Nat), k < c →
      (buildTableFrom r i t c)[k]? =
        some { level := i + k, xp := neededFor r (i + k),
               total := t + sumNeeded r i (k + 1),
               hp := evalFormula r.formulas.hp (simStats (i + k)),
               mp := evalFormula r.formulas.mp (simStats (i + k)) } := by
  induction c with
  | zero => intro i t k hk; omega
  | succ c ih =>
    intro i t k hk
    cases k with
    | zero =>
      simp [buildTableFrom, sumNeeded]
    | succ k =>
      have hk2 : k < c := by omega
      have he : (i + 1) + k = i + (k + 1) := by omega
      have h2 := ih (i + 1) (t + neededFor r i) k hk2
      simp only [buildTableFrom, List.getElem?_cons_succ]
      rw [h2, he]
      have ht : t + neededFor r i + sumNeeded r (i + 1) (k + 1)
          = t + sumNeeded r i (k + 1 + 1) := by
        rw [sumNeeded_shift r i (k + 1), ← add_assoc]
      rw [ht]

/-- The clamped requirement over the full JavaScript number domain is
either `NaN` (when the raw value is `NaN`: the `< 100` test is false and
the clamp is skipped) or at least 100 in the JavaScript ordering. -/
theorem clamp_nan_or_ge (raw : JSNum) (i : Nat) (hi : 1 ≤ i) :
    (if raw.lt (JSNum.fin ⟨100, 1⟩) then JSNum.fin ⟨100 * (i : Int), 1⟩ else raw)
        = JSNum.nan ∨
    JSNum.le (JSNum.fin ⟨100, 1⟩)
      (if raw.lt (JSNum.fin ⟨100, 1⟩) then JSNum.fin ⟨100 * (i : Int), 1⟩ else raw)
        = true := by
  have hile : (1 : Int) ≤ (i : Int) := by exact_mod_cast hi
  cases raw with
  | nan => left; rfl
  | inf => right; rfl
  | negInf =>
    right
    show JSNum.le (JSNum.fin ⟨100, 1⟩) (JSNum.fin ⟨100 * (i : Int), 1⟩) = true
    exact decide_eq_true (by
      show (100 : Int) * ((1 : Nat) : Int) ≤ 100 * (i : Int) * ((1 : Nat) : Int)
      omega)
  | fin q =>
    right
    by_cases h : q.num * (((1 : Nat) : Int)) < (100 : Int) * ((q.den : Nat) : Int)
    · have hb : (JSNum.fin q).lt (JSNum.fin ⟨100, 1⟩) = true := decide_eq_true h
      rw [hb]
      show JSNum.le (JSNum.fin ⟨100, 1⟩) (JSNum.fin ⟨100 * (i : Int), 1⟩) = true
      exact decide_eq_true (by
        show (100 : Int) * ((1 : Nat) : Int) ≤ 100 * (i : Int) * ((1 : Nat) : Int)
        omega)
    · have hb : (JSNum.fin q).lt (JSNum.fin ⟨100, 1⟩) = false := decide_eq_false h
      rw [hb]
      show JSNum.le (JSNum.fin ⟨100, 1⟩) (JSNum.fin q) = true
      exact decide_eq_true (by
        show (100 : Int) * ((q.den : Nat) : Int) ≤ q.num * ((1 : Nat) : Int)
        omega)

/-- Per-level form of `clamp_nan_or_ge` for the requirement function. -/
theorem neededForJS_nan_or_ge (r : SystemRulesJS) (i : Nat) (hi : 1 ≤ i) :
    neededForJS r i = JSNum.nan ∨
    JSNum.le (JSNum.fin ⟨100, 1⟩) (neededForJS r i) = true := by
  simp only [neededForJS]
  exact clamp_nan_or_ge _ i hi

/-- Requirement characterization for every row of a full-domain loop
starting at a level `≥ 1`. -/
theorem mem_buildTableFromJS_xp (r : SystemRulesJS) (c : Nat) :
    ∀ (i : Nat) (t : JSNum) (row : RowJS), 1 ≤ i → row ∈ buildTableFromJS r i t c →
      row.xp = JSNum.nan ∨ JSNum.le (JSNum.fin ⟨100, 1⟩) row.xp = true := by
  induction c with
  | zero => intro i t row hi h; simp [buildTableFromJS] at h
  | succ c ih =>
    intro i t row hi h
    simp only [buildTableFromJS, List.mem_cons] at h
    rcases h with h | h
    · subst h; exact neededForJS_nan_or_ge r i hi
    · exact ih (i + 1) _ row (by omega) h

/-- `Math.pow` on a finite base with a natural exponent is the rational
power. -/
theorem powNat_fin (q : Q) : ∀ (k : Nat), (JSNum.fin q).powNat k = JSNum.fin (q.pow k) := by
  intro k
  induction k with
  | zero => rfl
  | succ k ih =>
    show ((JSNum.fin q).powNat k).mul (JSNum.fin q) = JSNum.fin ((q.pow k).mul q)
    rw [ih]
    rfl

/-- The clamp agrees between the two models on a finite raw value. -/
theorem clampJS_fin (m : Int) (i : Nat) :
    (if (JSNum.fin ⟨m, 1⟩).lt (JSNum.fin ⟨100, 1⟩) then JSNum.fin ⟨100 * (i : Int), 1⟩
     else JSNum.fin ⟨m, 1⟩) =
      JSNum.fin ⟨if m < 100 then 100 * (i : Int) else m, 1⟩ := by
  by_cases h : m < 100
  · have hb : (JSNum.fin ⟨m, 1⟩).lt (JSNum.fin ⟨100, 1⟩) = true :=
      decide_eq_true (by
        show m * ((1 : Nat) : Int) < 100 * ((1 : Nat) : Int)
        omega)
    rw [hb, if_pos h]
    simp
  · have hb : (JSNum.fin ⟨m, 1⟩).lt (JSNum.fin ⟨100, 1⟩) = false :=
      decide_eq_false (by
        show ¬ (m * ((1 : Nat) : Int) < 100 * ((1 : Nat) : Int))
        omega)
    rw [hb, if_neg h]
    simp

/-- On finite configuration values the full-domain requirement agrees with
the finite-model requirement: `SystemRules` is the restriction of
`SystemRulesJS` to actual numbers. -/
theorem neededForJS_finite (c : Curve) (b f : Q) (fs : Formulas) (i : Nat) :
    neededForJS ⟨c, JSNum.fin b, JSNum.fin f, fs⟩ i =
      JSNum.fin ⟨neededFor ⟨c, b, f, fs⟩ i, 1⟩ := by
  cases c with
  | linear => exact clampJS_fin (Q.floor ((b.mul (Q.ofNat i)).mul f)) i
  | quadratic =>
    exact clampJS_fin (Q.floor (((b.mul ((Q.ofNat i).pow 2)).mul f).div (Q.ofNat 10))) i
  | exponential =>
    have hp := powNat_fin f i
    simp only [neededForJS, hp]
    exact clampJS_fin (Q.floor (b.mul (f.pow i))) i

/-- The `mp` column depends only on the `mp` formula, not on the running
total nor on the `hp` formula. -/
theorem map_mp_buildTableFrom (r r2 : SystemRules)
    (hm : r.formulas.mp = r2.formulas.mp) (c : Nat) :
    ∀ (i : Nat) (t t2 : Int),
      (buildTableFrom r i t c).map Row.mp = (buildTableFrom r2 i t2 c).map Row.mp := by
  induction c with
  | zero => intro i t t2; rfl
  | succ c ih =>
    intro i t t2
    simp [buildTableFrom, hm, ih (i + 1) (t + neededFor r i) (t2 + neededFor r2 i)]

/-- A character that occurs in `s` and not in the pattern survives
`replaceAll`: replaced regions are copies of the pattern and cannot cover
it. -/
theorem mem_replaceAll (c : Char) (pat rep : List Char) (hcp : c ∉ pat) :
    ∀ (fuel : Nat) (s : List Char), c ∈ s → c ∈ replaceAll pat rep fuel s := by
  intro fuel
  induction fuel with
  | zero =>
    intro s hs
    cases s with
    | nil => simp at hs
    | cons a as => simpa [replaceAll] using hs
  | succ fuel ih =>
    intro s hs
    cases s with
    | nil => simp at hs
    | cons a as =>
      simp only [replaceAll]
      split
      · rename_i hpre
        have hpre2 : pat <+: (a :: as) :=
          List.isPrefixOf_iff_prefix.mp ((Bool.and_eq_true _ _).mp hpre).2
        obtain ⟨tail, htail⟩ := hpre2
        have hdrop : (a :: as).drop pat.length = tail := by
          rw [← htail]; exact List.drop_left pat tail
        rw [hdrop]
        have hs2 : c ∈ pat ++ tail := htail.symm ▸ hs
        rcases List.mem_append.mp hs2 with h | h
        · exact absurd h hcp
        · exact List.mem_append.mpr (Or.inr (ih tail h))
      · rcases List.mem_cons.mp hs with h | h
        · exact h ▸ List.mem_cons_self a _
        · exact List.mem_cons_of_mem a (ih as h)

/-- A character not occurring in any stat name survives the whole
substitution pass. -/
theorem mem_subst (c : Char) :
    ∀ (stats : List (List Char × Nat)) (f : List Char), c ∈ f →
      (∀ kv ∈ stats, c ∉ kv.1) → c ∈ subst stats f := by
  intro stats
  induction stats with
  | nil => intro f hf _; simpa [subst] using hf
  | cons kv rest ih =>
    intro f hf hp
    have h1 : c ∈ replace1 kv.1 (Nat.repr kv.2).data f :=
      mem_replaceAll c kv.1 (Nat.repr kv.2).data
        (hp kv (List.mem_cons_self kv rest)) f.length f hf
    exact ih (replace1 kv.1 (Nat.repr kv.2).data f) h1
      (fun kv2 h2 => hp kv2 (List.mem_cons_of_mem kv h2))

/-- A string containing a disallowed character fails the whitelist. -/
theorem okString_eq_false_of_mem (c : Char) (s : List Char) (hc : c ∈ s)
    (hbad : isAllowedChar c = false) : okString s = false := by
  unfold okString
  have hall : s.all isAllowedChar = false := by
    cases hcase : s.all isAllowedChar with
    | false => rfl
    | true =>
      have h2 := List.all_eq_true.mp hcase c hc
      rw [hbad] at h2
      exact absurd h2 (by decide)
  simp [hall]

/-- If a disallowed character survives substitution, `evalFormula` returns
the error marker without the string ever reaching the evaluator. -/
theorem evalFormula_err_of_bad (f : List Char) (stats : List (List Char × Nat))
    (c : Char) (hc : c ∈ subst stats f) (hbad : isAllowedChar c = false) :
    evalFormula f stats = EvalResult.err := by
  have hok := okString_eq_false_of_mem c (subst stats f) hc hbad
  simp [evalFormula, hok]

/-- C1: the claim that the evaluator is a dedicated expression parser with
the whitelist as mere defense in depth is refuted by the code: after
substitution the whitelist regex is the sole guard, and the surviving
string is executed by the host dynamic code-execution facility. Observable
consequence at `10 / 0`: the string passes the whitelist and the host
returns the JavaScript float `Infinity` as an ordinary number, where a
dedicated arithmetic evaluator per the specification would surface a
division-by-zero marker and could never produce a host float. -/
theorem c1_sole_guard_host_eval :
    okString (subst [] exprDivZero) = true ∧
    evalFormula exprDivZero [] = EvalResult.num JSNum.inf :=
  ⟨by decide, by decide⟩

/-- C2: refuted by the code. `evaluate("10 / 0", {})` does not return a
`DivisionByZero` marker: the code has no such marker (its only error value
is the string `Err`), and JavaScript division `10 / 0` yields `Infinity`,
which is returned as a plain number, not as any error marker. The call
indeed does not throw. -/
theorem c2_div_zero_returns_infinity :
    evalFormula exprDivZero [] = EvalResult.num JSNum.inf ∧
    EvalResult.num JSNum.inf ≠ EvalResult.err :=
  ⟨by decide, by decide⟩

/-- C3: refuted by the code. Substitution is plain global substring
replacement, not exact-token replacement: at the level-1 snapshot
(`STR = VIT = 15`) the expression `STRVIT` becomes the digit string `1515`,
which passes the whitelist and evaluates to the number 1515 instead of
being rejected with an invalid-expression marker. -/
theorem c3_substring_substitution :
    subst (simStats 1) exprStrVit = ['1', '5', '1', '5'] ∧
    evalFormula exprStrVit (simStats 1) = EvalResult.num (JSNum.fin ⟨1515, 1⟩) :=
  ⟨by decide, by decide⟩

/-- C4: refuted by the code. The evaluator can return a non-finite value:
on `10 / 0` (here against the level-1 snapshot) it returns the JavaScript
`Infinity`, which is neither a finite number nor an error marker, contrary
to the claimed invariant. The no-escaping-exception half of the claim does
hold, since the whole body is wrapped in try/catch. -/
theorem c4_nonfinite_result :
    evalFormula exprDivZero (simStats 1) = EvalResult.num JSNum.inf ∧
    JSNum.isFinite JSNum.inf = false :=
  ⟨by decide, by decide⟩

/-- C5: for every configuration and every level count `n`, `buildTable`
returns exactly `n` rows whose level fields are `1, 2, ..., n` in ascending
order with no gaps (the source instantiates `n = 20` in
`calculatorData`). -/
theorem c5_buildTable_levels (r : SystemRules) (n : Nat) :
    (buildTable r n).length = n ∧
    (buildTable r n).map Row.level = List.range' 1 n :=
  ⟨buildTableFrom_length r n 1 0, buildTableFrom_map_level r n 1 0⟩

/-- C6: clamp correctness for the linear curve: the row at index `k`
(level `k + 1`) carries `xpNeeded = 100 * (k + 1)` when the raw value
`floor(base * (k + 1) * factor)` is strictly below the flat threshold 100,
and the raw value itself otherwise. -/
theorem c6_linear_clamp (r : SystemRules) (n k : Nat) (row : Row)
    (hc : r.xpCurve = Curve.linear) (hrow : (buildTable r n)[k]? = some row) :
    row.xp =
      if Q.floor ((r.xpBase.mul (Q.ofNat (k + 1))).mul r.xpFactor) < 100
      then 100 * ((k + 1 : Nat) : Int)
      else Q.floor ((r.xpBase.mul (Q.ofNat (k + 1))).mul r.xpFactor) := by
  have hlen : (buildTable r n).length = n := buildTableFrom_length r n 1 0
  have hk : k < n := by
    by_contra hkn
    have hnone : (buildTable r n)[k]? = none :=
      List.getElem?_eq_none (by rw [hlen]; omega)
    rw [hnone] at hrow
    exact Option.noConfusion hrow
  have h2 := buildTableFrom_getElem? r n 1 0 k hk
  rw [buildTable] at hrow
  rw [h2] at hrow
  injection hrow with hrow
  subst hrow
  show neededFor r (1 + k) = _
  simp only [neededFor, hc]
  have he : 1 + k = k + 1 := Nat.add_comm 1 k
  rw [he]

/-- Witness for C6 at the configuration `rLin`, table of one row, index 0. -/
theorem c6_linear_clamp_witness :
    (rLin.xpCurve = Curve.linear ∧ (buildTable rLin 1)[0]? = some wRow) ∧
    wRow.xp =
      (if Q.floor ((rLin.xpBase.mul (Q.ofNat (0 + 1))).mul rLin.xpFactor) < 100
       then 100 * ((0 + 1 : Nat) : Int)
       else Q.floor ((rLin.xpBase.mul (Q.ofNat (0 + 1))).mul rLin.xpFactor)) :=
  ⟨⟨rfl, by decide⟩, c6_linear_clamp rLin 1 0 wRow rfl (by decide)⟩

/-- C7 counterexample: the claim quantifies over every base/factor, but
the source fields are JavaScript numbers: with a `NaN` base (as produced by
clearing the Base XP input, `parseInt('')`) the raw linear value is `NaN`,
`NaN < 100` is false so the line-17 clamp is skipped, and the first row of
the 20-level table carries `xpNeeded = NaN`, which is not `≥ 100`
(`100 <= NaN` is false in the JavaScript ordering). -/
theorem c7_xp_floor_counterexample :
    ((buildTableJS rNaN 20)[0]!).xp = JSNum.nan ∧
    JSNum.le (JSNum.fin ⟨100, 1⟩) (((buildTableJS rNaN 20)[0]!).xp) = false :=
  ⟨by decide, by decide⟩

/-- C7 (amended): for every curve kind and every base/factor over the full
JavaScript number domain, every row's post-clamp requirement is at least
100 in the JavaScript ordering unless it is `NaN`; the `NaN` case arises
exactly when a `NaN` reaches the raw curve computation (a `NaN` base or
factor, or an `Infinity * 0` combination), where the `< 100` test is false
and the clamp is skipped. -/
theorem c7_xp_floor_amended (r : SystemRulesJS) (n : Nat) (row : RowJS)
    (h : row ∈ buildTableJS r n) :
    row.xp = JSNum.nan ∨ JSNum.le (JSNum.fin ⟨100, 1⟩) row.xp = true :=
  mem_buildTableFromJS_xp r n 1 (JSNum.fin ⟨0, 1⟩) row (by omega) h

/-- Witness for the amended C7: the concrete sole row of
`buildTableJS rLinJS 1`. -/
theorem c7_xp_floor_amended_witness :
    wRowJS ∈ buildTableJS rLinJS 1 ∧
    (wRowJS.xp = JSNum.nan ∨ JSNum.le (JSNum.fin ⟨100, 1⟩) wRowJS.xp = true) :=
  ⟨by decide, c7_xp_floor_amended rLinJS 1 wRowJS (by decide)⟩

/-- C8: the cumulative column is the running sum of the per-level
requirement: the first row's total equals its own requirement (the total
before it is zero), and every later row's total is the previous row's
total plus that row's requirement. -/
theorem c8_total_running_sum (r : SystemRules) (n : Nat) :
    (∀ row : Row, (buildTable r n)[0]? = some row → row.total = row.xp) ∧
    (∀ (k : Nat) (rowk rowk1 : Row),
      (buildTable r n)[k]? = some rowk →
      (buildTable r n)[k + 1]? = some rowk1 →
      rowk1.total = rowk.total + rowk1.xp) := by
  have hlen : (buildTable r n).length = n := buildTableFrom_length r n 1 0
  constructor
  · intro row hrow
    have h0 : 0 < n := by
      by_contra h0n
      have hnone : (buildTable r n)[0]? = none :=
        List.getElem?_eq_none (by rw [hlen]; omega)
      rw [hnone] at hrow
      exact Option.noConfusion hrow
    have h2 := buildTableFrom_getElem? r n 1 0 0 h0
    rw [buildTable] at hrow
    rw [h2] at hrow
    injection hrow with hrow
    subst hrow
    show (0 : Int) + sumNeeded r 1 (0 + 1) = neededFor r (1 + 0)
    simp [sumNeeded]
  · intro k rowk rowk1 hk hk1
    have hk1n : k + 1 < n := by
      by_contra hkn
      have hnone : (buildTable r n)[k + 1]? = none :=
        List.getElem?_eq_none (by rw [hlen]; omega)
      rw [hnone] at hk1
      exact Option.noConfusion hk1
    have hkn : k < n := by omega
    have h2 := buildTableFrom_getElem? r n 1 0 k hkn
    have h3 := buildTableFrom_getElem? r n 1 0 (k + 1) hk1n
    rw [buildTable] at hk hk1
    rw [h2] at hk
    rw [h3] at hk1
    injection hk with hk
    injection hk1 with hk1
    subst hk
    subst hk1
    show (0 : Int) + sumNeeded r 1 (k + 1 + 1)
        = (0 + sumNeeded r 1 (k + 1)) + neededFor r (1 + (k + 1))
    simp [sumNeeded]

/-- Witness for C8 on the two-row table of `rLin`. -/
theorem c8_total_running_sum_witness :
    ((buildTable rLin 2)[0]? = some wRow ∧ wRow.total = wRow.xp) ∧
    ((buildTable rLin 2)[0]? = some wRow ∧ (buildTable rLin 2)[1]? = some wRow2 ∧
      wRow2.total = wRow.total + wRow2.xp) :=
  ⟨⟨by decide, (c8_total_running_sum rLin 2).1 wRow (by decide)⟩,
   ⟨by decide, by decide,
     (c8_total_running_sum rLin 2).2 0 wRow wRow2 (by decide) (by decide)⟩⟩

/-- C9: one formula's failure is local to its cell: for two configurations
agreeing on curve, base, factor and the `mp` formula (the `hp` formula may
differ arbitrarily, in particular one may error), the `mp` columns of the
two tables coincide at every level, and the builder still returns a
complete table of `n` rows. -/
theorem c9_formula_failure_local (r r2 : SystemRules) (n : Nat)
    (_hc : r.xpCurve = r2.xpCurve) (_hb : r.xpBase = r2.xpBase)
    (_hf : r.xpFactor = r2.xpFactor) (hm : r.formulas.mp = r2.formulas.mp) :
    (buildTable r n).map Row.mp = (buildTable r2 n).map Row.mp ∧
    (buildTable r n).length = n :=
  ⟨map_mp_buildTableFrom r r2 hm n 1 0 0, buildTableFrom_length r n 1 0⟩

/-- Witness for C9: `rA` (whose `hp` formula `AGI` errors in every row)
against `rB` (whose `hp` formula succeeds); the `mp` columns coincide and
the table is complete. -/
theorem c9_formula_failure_local_witness :
    (rA.xpCurve = rB.xpCurve ∧ rA.xpBase = rB.xpBase ∧
      rA.xpFactor = rB.xpFactor ∧ rA.formulas.mp = rB.formulas.mp) ∧
    (buildTable rA 2).map Row.hp = [EvalResult.err, EvalResult.err] ∧
    ((buildTable rA 2).map Row.mp = (buildTable rB 2).map Row.mp ∧
      (buildTable rA 2).length = 2) :=
  ⟨⟨rfl, rfl, rfl, rfl⟩, by decide,
    c9_formula_failure_local rA rB 2 rfl rfl rfl rfl⟩

/-- C10: the whitelist guard runs before any evaluation: if any character
of the post-substitution string is outside the allowed set, `evalFormula`
returns the error marker; in particular, since the letters `A` and `G`
occur in no stat name, every expression containing the advertised but
unsupported identifier `AGI` returns the error marker at every level,
never a number. -/
theorem c10_whitelist_guard :
    (∀ (f : List Char) (stats : List (List Char × Nat)) (c : Char),
        c ∈ subst stats f → isAllowedChar c = false →
        evalFormula f stats = EvalResult.err) ∧
    (∀ (f : List Char) (i : Nat), ['A', 'G', 'I'] <:+: f →
        evalFormula f (simStats i) = EvalResult.err) := by
  constructor
  · intro f stats c hc hbad
    exact evalFormula_err_of_bad f stats c hc hbad
  · intro f i hinf
    have hA : 'A' ∈ f := hinf.sublist.subset (by decide)
    have hsub : 'A' ∈ subst (simStats i) f := by
      apply mem_subst 'A' (simStats i) f hA
      intro kv hkv
      simp only [simStats, List.mem_cons, List.not_mem_nil, or_false] at hkv
      rcases hkv with rfl | rfl | rfl | rfl
      · show 'A' ∉ ['S', 'T', 'R']
        decide
      · show 'A' ∉ ['V', 'I', 'T']
        decide
      · show 'A' ∉ ['I', 'N', 'T']
        decide
      · show 'A' ∉ ['W', 'I', 'S']
        decide
    exact evalFormula_err_of_bad f (simStats i) 'A' hsub (by decide)

/-- Witness for C10: the one-letter expression `x` fails the whitelist and
errors, and the concrete expression `AGI + 5` contains `AGI` and errors at
level 1. -/
theorem c10_whitelist_guard_witness :
    (('x' ∈ subst [] ['x'] ∧ isAllowedChar 'x' = false) ∧
      evalFormula ['x'] [] = EvalResult.err) ∧
    ((['A', 'G', 'I'] <:+: exprAgi) ∧
      evalFormula exprAgi (simStats 1) = EvalResult.err) :=
  ⟨⟨⟨by decide, by decide⟩, c10_whitelist_guard.1 ['x'] [] 'x' (by decide) (by decide)⟩,
   ⟨⟨[], [' ', '+', ' ', '5'], rfl⟩,
     c10_whitelist_guard.2 exprAgi 1 ⟨[], [' ', '+', ' ', '5'], rfl⟩⟩⟩

end WnCreate
